import Mathlib

/-!
Verification development for the mailtool-py search-criteria composition and
rule-evaluation engine (`mailtool/mailaccount.py`, `mailtool/mailsession.py`).

The Python code is shallowly embedded: the IMAP server reached through the
`MailSession` collaborator is modelled as an association list from folder
names to message lists, protocol `search` is interpreted over that state with
standard IMAP clause semantics (spec §6), and each method of `MailAccount`
becomes an executable Lean function returning `Except RErr _` (Python
exceptions become `.error _`).  Python `set` values become duplicate-free
ascending `List Nat` values (the unspecified enumeration order of
`list(set)` is modelled as ascending order); Python lists stay lists.
-/

/-- A mail message as visible through FETCH of UID/ENVELOPE/BODYSTRUCTURE/FLAGS
(the fields `MailMessage.from_data` extracts that the engine consults).
Dates are abstracted to ordinals (`SINCE d` = on/after `d`, `BEFORE d` =
strictly before `d`). -/
structure Msg where
  uid : Nat
  address : String
  recipients : List String
  subject : String
  msgDate : Nat
  seen : Bool
  answered : Bool
  deleted : Bool
  attachCount : Nat
deriving DecidableEq, Repr

/-- Server state: folders with their message lists, keyed by folder name. -/
abbrev Server : Type := List (String × List Msg)

deriving instance DecidableEq for Except

/-- Errors surfaced by the embedded operations: a failed `SELECT`
(nonexistent folder) or a Python-level crash (`TypeError`, bad index). -/
inductive RErr where
  | noSuchFolder
  | crash
deriving DecidableEq, Repr

/-- A scalar Python value as it occurs inside search specifications and
criteria lists: a string, a date (abstract ordinal), a boolean, or the
opaque date-range specifier consumed by `ymd_from_date_spec`. -/
inductive PyAtom where
  | str (s : String)
  | date (d : Nat)
  | bool (b : Bool)
  | dspec (d1 d2 : Nat)
deriving DecidableEq, Repr

/-- A dynamically typed Python value as passed through search
specifications: a scalar or a (flat) list of scalars — the engine only ever
builds flat lists. -/
inductive PyVal where
  | str (s : String)
  | date (d : Nat)
  | bool (b : Bool)
  | dspec (d1 d2 : Nat)
  | list (l : List PyAtom)
deriving DecidableEq, Repr

/-- Embed a scalar back into the value type. -/
def PyAtom.toVal : PyAtom → PyVal
  | .str s => .str s
  | .date d => .date d
  | .bool b => .bool b
  | .dspec d1 d2 => .dspec d1 d2

/-- Python truthiness of a value (used for `unread_only = searchspec["unread"]`). -/
def PyVal.truthy : PyVal → Bool
  | .bool b => b
  | .str s => !(s == "")
  | .list l => !l.isEmpty
  | .date _ => true
  | .dspec _ _ => true

/-- Projection to a string (call sites only apply it to `.str` values). -/
def PyAtom.asStr : PyAtom → String
  | .str s => s
  | _ => ""

/-- Projection to a string (call sites only apply it to `.str` values). -/
def PyVal.asStr : PyVal → String
  | .str s => s
  | _ => ""

/-- Whether the first character list is a prefix of the second. -/
def chStarts : List Char → List Char → Bool
  | [], _ => true
  | _ :: _, [] => false
  | x :: xs, y :: ys => x == y && chStarts xs ys

/-- Whether the first character list occurs as a contiguous run in the
second. -/
def chSub (needle : List Char) : List Char → Bool
  | [] => needle.isEmpty
  | c :: t => chStarts needle (c :: t) || chSub needle t

/-- Python `needle in hay` for strings (substring containment). -/
def strContains (hay needle : String) : Bool :=
  chSub needle.toList hay.toList

/-- Split a character list at every separator character, keeping empty
fields (Python `str.split(sep)`). -/
def splitOnCharAux (c : Char) : List Char → List Char → List String
  | [], acc => [String.mk acc.reverse]
  | x :: xs, acc =>
    if x == c then String.mk acc.reverse :: splitOnCharAux c xs []
    else splitOnCharAux c xs (x :: acc)

/-- Python's `s.split(c)` for a single-character separator. -/
def splitOnChar (s : String) (c : Char) : List String :=
  splitOnCharAux c s.toList []

/-- Split a character list at whitespace, keeping empty fields. -/
def splitWsAux : List Char → List Char → List String
  | [], acc => [String.mk acc.reverse]
  | x :: xs, acc =>
    if x.isWhitespace then String.mk acc.reverse :: splitWsAux xs []
    else splitWsAux xs (x :: acc)

/-- Python's `str.split()` with no separator: split on whitespace,
discarding empty fields. -/
def pySplit (s : String) : List String :=
  (splitWsAux s.toList []).filter (fun t => !(t == ""))

/-- Embeds `mailaccount.listify`: a string splits on whitespace when that yields more
than one token, otherwise is wrapped; a list is returned as is; anything else
is wrapped in a singleton list. -/
def pyListify : PyVal → List PyAtom
  | .str s =>
    let ls := pySplit s
    if ls.length > 1 then ls.map PyAtom.str else [.str s]
  | .list l => l
  | .date d => [.date d]
  | .bool b => [.bool b]
  | .dspec d1 d2 => [.dspec d1 d2]

/-- Python `">>" in v`: substring test on strings, membership on lists
(other types would raise in Python; the engine only reaches this test with
string or list values). -/
def pyContains (v : PyVal) (needle : String) : Bool :=
  match v with
  | .str s => strContains s needle
  | .list l => l.contains (.str needle)
  | _ => false

/-- Items of the criteria list handed to `session.search`: a bare keyword
token, a value argument following a keyword, or the nested
`[keyword, value]` pair emitted after a `NOT`. -/
inductive CritItem where
  | kw (s : String)
  | arg (v : PyAtom)
  | nested (k : String) (v : PyAtom)
deriving DecidableEq, Repr

/-- IMAP semantics of one keyword/value clause (Mail Session collaborator,
spec §6): FROM/TO/SUBJECT are substring matches, SINCE/BEFORE compare the
date ordinal; a clause whose value has the wrong type matches nothing. -/
def clauseMatch (m : Msg) (k : String) (v : PyAtom) : Bool :=
  match k, v with
  | "FROM", .str s => strContains m.address s
  | "TO", .str s => m.recipients.any (fun r => strContains r s)
  | "SUBJECT", .str s => strContains m.subject s
  | "SINCE", .date d => decide (d ≤ m.msgDate)
  | "BEFORE", .date d => decide (m.msgDate < d)
  | _, _ => false

/-- Whether a message matches a whole criteria list (conjunction of clauses;
`UNSEEN`/`UNANSWERED` are bare, `NOT` negates the following nested clause).
A malformed list matches nothing. -/
def critPred (m : Msg) : List CritItem → Bool
  | [] => true
  | .kw "UNSEEN" :: rest => !m.seen && critPred m rest
  | .kw "UNANSWERED" :: rest => !m.answered && critPred m rest
  | .kw "NOT" :: .nested k v :: rest => !(clauseMatch m k v) && critPred m rest
  | .kw k :: .arg v :: rest => clauseMatch m k v && critPred m rest
  | _ => false

/-- Models `session.search(criteria)` scoped to a selected folder: UIDs of the
matching messages.  An empty criteria list is IMAP `ALL`. -/
def serverSearch (msgs : List Msg) (criteria : List CritItem) : List Nat :=
  (msgs.filter (fun m => critPred m criteria)).map (fun m => m.uid)

/-- Look up a folder's messages by name (first match). -/
def findFolder : Server → String → Option (List Msg)
  | [], _ => none
  | p :: rest, name => if p.1 == name then some p.2 else findFolder rest name

/-- Models `session.select_folder`: error on a nonexistent folder. -/
def selectFolder (srv : Server) (name : String) : Except RErr (List Msg) :=
  match findFolder srv name with
  | some msgs => .ok msgs
  | none => .error .noSuchFolder

/-- Whether the account's folder list contains `name`
(`MailAccount.folders`; the cache is invalidated on folder mutation, so the
live view is accurate). -/
def hasFolder (srv : Server) (name : String) : Bool :=
  (findFolder srv name).isSome

/-- Build `session.search` criteria from zipped (spec, val) pairs, exactly as
the loop of `MailAccount._get_messages_with_specs`: a key containing "NOT"
emits `NOT` plus a nested pair using the key at index 1 of the full key list;
a key containing "UNANSWERED" emits the bare keyword; any other key emits the
keyword followed by the raw value.  A non-string key, or a missing index-1
key, is a Python crash. -/
def buildCriteria (allSpecs : List PyAtom) : List (PyAtom × PyAtom) → Except RErr (List CritItem)
  | [] => .ok []
  | (spec, val) :: rest => do
    let more ← buildCriteria allSpecs rest
    match spec with
    | .str s =>
      if strContains s "NOT" then
        match allSpecs[1]? with
        | some (PyAtom.str s1) => .ok ([.kw "NOT", .nested s1 val] ++ more)
        | _ => .error .crash
      else if strContains s "UNANSWERED" then
        .ok ([.kw "UNANSWERED"] ++ more)
      else
        .ok ([.kw s, .arg val] ++ more)
    | _ => .error .crash

/-- Embeds `MailAccount._get_messages_with_specs`: select the folder read-only,
start from `["UNSEEN"]` when unread-only, listify keys and values, zip them
(silently dropping unmatched keys, as `zip` does), and search. -/
def getMessagesWithSpecs (srv : Server) (folderName : String)
    (specKeys specVals : PyVal) (unreadOnly : Bool) : Except RErr (List Nat) := do
  let msgs ← selectFolder srv folderName
  let base := if unreadOnly then [CritItem.kw "UNSEEN"] else []
  let specs := pyListify specKeys
  let vals := pyListify specVals
  let crits ← buildCriteria specs (specs.zip vals)
  .ok (serverSearch msgs (base ++ crits))

/-- The per-folder loop of `MailAccount._get_message_ids`: select each folder
and extend with `search(["UNSEEN"])` or `search()`. -/
def searchFolders (srv : Server) (unread : Bool) : List String → Except RErr (List Nat)
  | [] => .ok []
  | f :: rest => do
    let msgs ← selectFolder srv f
    let uids := serverSearch msgs (if unread then [CritItem.kw "UNSEEN"] else [])
    let more ← searchFolders srv unread rest
    .ok (uids ++ more)

/-- Embeds `MailAccount._get_message_ids`: `"*"` means every folder of the account,
otherwise the folder-name string is listified (so a name with internal
whitespace is split into several names). -/
def getMessageIdsFlag (srv : Server) (folderName : String) (unread : Bool) :
    Except RErr (List Nat) :=
  let folders :=
    if folderName == "*" then srv.map (fun p => p.1)
    else (pyListify (.str folderName)).map PyAtom.asStr
  searchFolders srv unread folders

/-- Embeds `MailAccount.get_all_message_ids`. -/
def getAllMessageIds (srv : Server) (folderName : String) : Except RErr (List Nat) :=
  getMessageIdsFlag srv folderName false

/-- Embeds `MailAccount.get_unread_ids`. -/
def getUnreadIds (srv : Server) (folderName : String) : Except RErr (List Nat) :=
  getMessageIdsFlag srv folderName true

/-- Embeds `MailAccount.get_messages_since_date` (the value is passed through raw). -/
def getMessagesSinceDate (srv : Server) (folderName : String) (v : PyVal)
    (unreadOnly : Bool) : Except RErr (List Nat) :=
  getMessagesWithSpecs srv folderName (.str "SINCE") v unreadOnly

/-- Embeds `MailAccount.get_messages_before_date`. -/
def getMessagesBeforeDate (srv : Server) (folderName : String) (v : PyVal)
    (unreadOnly : Bool) : Except RErr (List Nat) :=
  getMessagesWithSpecs srv folderName (.str "BEFORE") v unreadOnly

/-- Embeds `MailAccount.get_messages_between_dates`: parallel key list
`["SINCE", "BEFORE"]` zipped with the two values. -/
def getMessagesBetweenDates (srv : Server) (folderName : String) (d1 d2 : PyAtom)
    (unreadOnly : Bool) : Except RErr (List Nat) :=
  getMessagesWithSpecs srv folderName (.list [.str "SINCE", .str "BEFORE"])
    (.list [d1, d2]) unreadOnly

/-- The per-address loop of `MailAccount._get_messages_with_addresses`,
extending the UID list with one FROM/TO query per listified address. -/
def addressLoop (srv : Server) (folderName : String) (fromto : String)
    (unreadOnly : Bool) : List PyAtom → Except RErr (List Nat)
  | [] => .ok []
  | a :: rest => do
    let au ← getMessagesWithSpecs srv folderName (.list [.str fromto]) a.toVal unreadOnly
    let more ← addressLoop srv folderName fromto unreadOnly rest
    .ok (au ++ more)

/-- Embeds `MailAccount._get_messages_with_addresses`. -/
def getMessagesWithAddresses (srv : Server) (folderName : String)
    (addresses : PyVal) (fromto : String) (unreadOnly : Bool) :
    Except RErr (List Nat) :=
  addressLoop srv folderName fromto unreadOnly (pyListify addresses)

/-- Embeds `MailAccount.get_messages_from`. -/
def getMessagesFrom (srv : Server) (folderName : String) (senders : PyVal)
    (unreadOnly : Bool) : Except RErr (List Nat) :=
  getMessagesWithAddresses srv folderName senders "FROM" unreadOnly

/-- Embeds `MailAccount.get_messages_to`. -/
def getMessagesTo (srv : Server) (folderName : String) (recipients : PyVal)
    (unreadOnly : Bool) : Except RErr (List Nat) :=
  getMessagesWithAddresses srv folderName recipients "TO" unreadOnly

/-- Embeds `MailAccount.get_message_objs`: Python returns `None` (here `none`) when
the UID list is empty, otherwise the fetched message objects for the UIDs
present in the folder. -/
def getMessageObjs (srv : Server) (uids : List Nat) (fromFolder : String) :
    Except RErr (Option (List Msg)) :=
  if uids.length < 1 then .ok none
  else do
    let msgs ← selectFolder srv fromFolder
    .ok (some (msgs.filter (fun m => uids.contains m.uid)))

/-- Embeds `MailAccount.messages_with_attachments`: early return on an empty UID
list (no session is opened), otherwise keep UIDs with ≥ 1 attachment
(or exactly 0 when inverted). -/
def messagesWithAttachments (srv : Server) (uids : List Nat)
    (fromFolder : String) (invert : Bool) : Except RErr (List Nat) :=
  if uids.length < 1 then .ok uids
  else do
    let msgs ← selectFolder srv fromFolder
    .ok ((msgs.filter (fun m =>
      uids.contains m.uid &&
        (if invert then m.attachCount == 0 else decide (m.attachCount > 0)))).map
        (fun m => m.uid))

/-- Models `toolbox.ymd_from_date_spec` (external collaborator, outside this
repository): per spec §3 a date-range specifier expands to its since/before
pair; it is modelled abstractly as carrying that pair, anything else being a
caller error. -/
def ymdFromDateSpec : PyVal → Except RErr (Nat × Nat)
  | .dspec d1 d2 => .ok (d1, d2)
  | _ => .error .crash

/-- The sentinel filter body of the `senders` branch of
`MailAccount.get_message_uids`: keep a message whose sender address splits on
"@" into exactly two parts with a domain longer than 32 characters. -/
def domainCond (m : Msg) : Bool :=
  match splitOnChar m.address '@' with
  | [_, host] => host.length > 32
  | _ => false

/-- One iteration of the predicate dispatch chain of
`MailAccount.get_message_uids` (the if/elif ladder over the key), returning
`none` for the `else: continue` arm.  Branch order and the substring key
tests mirror the source. -/
def resolvePredicate (srv : Server) (folderName : String) (unreadOnly : Bool)
    (k : String) (v : PyVal) : Except RErr (Option (List Nat)) := do
  if k == "senders" then
    if pyContains v ">>" then
      let allUids ← getAllMessageIds srv folderName
      match ← getMessageObjs srv allUids folderName with
      | none => .error .crash
      | some objs => .ok (some ((objs.filter domainCond).map (fun m => m.uid)))
    else
      .ok (some (← getMessagesFrom srv folderName v unreadOnly))
  else if strContains k "not_senders" then
    .ok (some (← getMessagesWithSpecs srv folderName (.str "NOT FROM") v unreadOnly))
  else if strContains k "recipients" then
    .ok (some (← getMessagesTo srv folderName v unreadOnly))
  else if strContains k "since" then
    .ok (some (← getMessagesSinceDate srv folderName v unreadOnly))
  else if strContains k "before" then
    .ok (some (← getMessagesBeforeDate srv folderName v unreadOnly))
  else if strContains k "date" then
    let (d1, d2) ← ymdFromDateSpec v
    .ok (some (← getMessagesBetweenDates srv folderName (.date d1) (.date d2) unreadOnly))
  else if k == "subject" then
    .ok (some (← getMessagesWithSpecs srv folderName (.str "SUBJECT") v unreadOnly))
  else if strContains k "not_subject" then
    .ok (some (← getMessagesWithSpecs srv folderName (.str "NOT SUBJECT") v unreadOnly))
  else if strContains k "not_replied" then
    .ok (some (← getMessagesWithSpecs srv folderName (.str "UNANSWERED") (.str "") unreadOnly))
  else
    .ok none

/-- A search specification: the ordered key/value pairs of the Python dict. -/
abbrev Spec : Type := List (String × PyVal)

/-- Python `k in searchspec`. -/
def specHas (spec : Spec) (k : String) : Bool :=
  spec.any (fun p => p.1 == k)

/-- Python `searchspec[k]`. -/
def specLookup (spec : Spec) (k : String) : Option PyVal :=
  (List.find? (fun p => p.1 == k) spec).map (fun p => p.2)

/-- Insert into a strictly ascending list, keeping it strictly ascending. -/
def insNat (x : Nat) : List Nat → List Nat
  | [] => [x]
  | y :: ys =>
    if x < y then x :: y :: ys
    else if x == y then y :: ys
    else y :: insNat x ys

/-- Python `set.update(news)` on a set represented as a strictly ascending
list (Python's unordered set is modelled in ascending enumeration order). -/
def setUnion (s news : List Nat) : List Nat :=
  news.foldl (fun acc x => insNat x acc) s

/-- Python `set.intersection(news)` on the ascending-list representation. -/
def setInter (s news : List Nat) : List Nat :=
  s.filter (fun x => news.contains x)

/-- The canonical (ascending, duplicate-free) form of a UID list, i.e.
Python's `set(l)`. -/
def canon (l : List Nat) : List Nat :=
  setUnion [] l

/-- The merge block at the bottom of the predicate loop of
`MailAccount.get_message_uids`: intersect or union the fresh UID list into
the running set, with OR-union, singleton-spec union, and first-nonempty
seeding exactly as in the source. -/
def mergeStep (merge : String) (specLen : Nat) (first : Bool)
    (uids : List Nat) (newUids : List Nat) : List Nat :=
  if uids.length > 0 then
    if merge == "and" then setInter uids newUids else setUnion uids newUids
  else if merge == "or" || specLen == 1 then setUnion uids newUids
  else if first && newUids.length > 0 then setUnion uids newUids
  else uids

/-- The predicate loop of `MailAccount.get_message_uids`.  The `continue` arm
(unrecognized key) skips the `first = False` update, as in the source. -/
def resolveLoop (srv : Server) (folderName : String) (unreadOnly : Bool)
    (merge : String) (specLen : Nat) :
    List (String × PyVal) → Bool → List Nat → Except RErr (List Nat)
  | [], _, uids => .ok uids
  | (k, v) :: rest, first, uids => do
    match ← resolvePredicate srv folderName unreadOnly k v with
    | none => resolveLoop srv folderName unreadOnly merge specLen rest first uids
    | some newUids =>
        resolveLoop srv folderName unreadOnly merge specLen rest false
          (mergeStep merge specLen first uids newUids)

/-- The seeding prologue of `MailAccount.get_message_uids`: a specification
containing only `unread` seeds with the unseen set; an empty specification
seeds with all messages; anything else starts empty. -/
def initialSeed (srv : Server) (folderName : String) (spec : Spec) :
    Except RErr (List Nat) :=
  if specHas spec "unread" then
    if spec.length == 1 then do
      let l ← getUnreadIds srv folderName
      .ok (canon l)
    else .ok []
  else if spec.length == 0 then do
    let l ← getAllMessageIds srv folderName
    .ok (canon l)
  else .ok []

/-- The trailing post-filter loop of `MailAccount.get_message_uids`:
`attachments` / `no_attachments` keys re-filter the UID list, every other key
is skipped. -/
def postFilterLoop (srv : Server) (folderName : String) :
    List (String × PyVal) → List Nat → Except RErr (List Nat)
  | [], uids => .ok uids
  | (k, _) :: rest, uids => do
    if k == "attachments" then
      postFilterLoop srv folderName rest (← messagesWithAttachments srv uids folderName false)
    else if k == "no_attachments" then
      postFilterLoop srv folderName rest (← messagesWithAttachments srv uids folderName true)
    else
      postFilterLoop srv folderName rest uids

/-- Embeds `MailAccount.get_message_uids`: seed, run the predicate loop, convert the
set to a list (ascending, modelling Python's unspecified `list(set)` order),
and apply post-filters. -/
def getMessageUids (srv : Server) (folderName : String) (spec : Spec)
    (merge : String) : Except RErr (List Nat) := do
  let unreadOnly :=
    if specHas spec "unread" then ((specLookup spec "unread").getD (.bool false)).truthy
    else false
  let seed ← initialSeed srv folderName spec
  let merged ← resolveLoop srv folderName unreadOnly merge spec.length spec true seed
  postFilterLoop srv folderName spec merged

/-- Protocol calls recorded by the mutating operations (read-only resolution
issues only searches and fetches and is not traced). -/
inductive Call where
  | sessionOpen
  | sessionClose
  | select (folder : String) (readonly : Bool)
  | copy (uids : List Nat) (dest : String)
  | move (uids : List Nat) (dest : String)
  | deleteMsgs (uids : List Nat)
  | expunge (uids : List Nat)
  | createFolder (name : String)
deriving DecidableEq, Repr

/-- Whether a call mutates server state. -/
def Call.isMutating : Call → Bool
  | .copy _ _ => true
  | .move _ _ => true
  | .deleteMsgs _ => true
  | .expunge _ => true
  | .createFolder _ => true
  | _ => false

/-- Apply a function to the message list of the named folder. -/
def updFolder : Server → String → (List Msg → List Msg) → Server
  | [], _, _ => []
  | p :: rest, name, f =>
    (if p.1 == name then (p.1, f p.2) else p) :: updFolder rest name f

/-- Models `session.copy(uids, dest)`: append the selected folder's messages with
the given UIDs to the destination folder; a nonexistent destination is a
protocol error. -/
def sessCopy (srv : Server) (fromF toF : String) (uids : List Nat) :
    Except RErr Server :=
  match findFolder srv fromF, findFolder srv toF with
  | some src, some _ =>
    .ok (updFolder srv toF (fun d => d ++ src.filter (fun m => uids.contains m.uid)))
  | _, _ => .error .noSuchFolder

/-- Models `session.delete_messages(uids)`: set the \Deleted flag on the given UIDs
in the folder. -/
def sessDeleteFlag (srv : Server) (inF : String) (uids : List Nat) : Server :=
  updFolder srv inF
    (List.map (fun m => if uids.contains m.uid then { m with deleted := true } else m))

/-- Models `session.expunge(uids)` (UID EXPUNGE): remove the \Deleted-flagged
messages among the given UIDs from the folder. -/
def sessExpunge (srv : Server) (inF : String) (uids : List Nat) : Server :=
  updFolder srv inF (List.filter (fun m => !(m.deleted && uids.contains m.uid)))

/-- Models `session.move(uids, dest)` (native MOVE): append the selected messages
to the destination and remove them from the source atomically. -/
def sessMove (srv : Server) (fromF toF : String) (uids : List Nat) :
    Except RErr Server :=
  match findFolder srv fromF, findFolder srv toF with
  | some src, some _ =>
    .ok (updFolder
          (updFolder srv toF (fun d => d ++ src.filter (fun m => uids.contains m.uid)))
          fromF (List.filter (fun m => !(uids.contains m.uid))))
  | _, _ => .error .noSuchFolder

/-- Embeds `MailAccount.move_messages`: early return on an empty UID list (no
session is opened); otherwise select the source folder writable and either
issue a native MOVE (when the account has the MOVE capability) or fall back
to copy, delete, expunge within the same session. -/
def moveMessages (srv : Server) (hasMove : Bool) (uids : List Nat)
    (fromF toF : String) : Except RErr (Server × List Call) :=
  if uids.length < 1 then .ok (srv, [])
  else do
    let _ ← selectFolder srv fromF
    if hasMove then
      let srv1 ← sessMove srv fromF toF uids
      .ok (srv1, [.sessionOpen, .select fromF false, .move uids toF, .sessionClose])
    else
      let srv1 ← sessCopy srv fromF toF uids
      let srv2 := sessDeleteFlag srv1 fromF uids
      let srv3 := sessExpunge srv2 fromF uids
      .ok (srv3,
        [.sessionOpen, .select fromF false, .copy uids toF,
         .deleteMsgs uids, .expunge uids, .sessionClose])

/-- Embeds `MailAccount.delete_messages`: early return on an empty UID list (no
session is opened); otherwise select, flag \Deleted and expunge. -/
def deleteMessages (srv : Server) (uids : List Nat) (fromF : String) :
    Except RErr (Server × List Call) :=
  if uids.length < 1 then .ok (srv, [])
  else do
    let _ ← selectFolder srv fromF
    let srv1 := sessDeleteFlag srv fromF uids
    let srv2 := sessExpunge srv1 fromF uids
    .ok (srv2,
      [.sessionOpen, .select fromF false, .deleteMsgs uids, .expunge uids,
       .sessionClose])

/-- Session-lifetime errors of `MailSession`. -/
inductive SessErr where
  | accountLoginFailed
  | bodyFailed
deriving DecidableEq, Repr

/-- The `with MailSession(...) as session:` protocol of
`mailsession.MailSession` over a count of open connections.  `__enter__`
first constructs the IMAP client (which establishes the connection), then
logs in; any failure there is re-raised as `AccountLoginFailedException`.
Python runs `__exit__` (which logs out, closing the connection) only when
`__enter__` returned normally — including when the body raises, but not
when `__enter__` itself raised. -/
def withMailSession (connectOk loginOk : Bool) (conns : Nat)
    (body : Nat → Nat × Except SessErr Unit) : Nat × Except SessErr Unit :=
  if !connectOk then (conns, .error .accountLoginFailed)
  else if !loginOk then (conns + 1, .error .accountLoginFailed)
  else
    let (conns1, r) := body (conns + 1)
    (conns1 - 1, r)

/-- Embeds `MailAccount.create_folder`: create an empty folder on the server (and
invalidate the cached folder list, modelled by reading folders live). -/
def createFolderOp (srv : Server) (name : String) : Server × List Call :=
  (srv ++ [(name, [])], [.sessionOpen, .createFolder name, .sessionClose])

/-- Reported rule actions (the console notifications `process_rules` prints
for actions taken or, under dry-run, intended). -/
inductive Report where
  | createdFolder (name : String)
  | wouldCreateFolder (name : String)
  | moved (n : Nat)
  | wouldMove (n : Nat)
  | deletedMsgs (n : Nat)
  | wouldDelete (n : Nat)
deriving DecidableEq, Repr

/-- A rule record: the ordered key/value pairs of the rule-file dict. -/
structure Rule where
  entries : List (String × PyVal)
deriving DecidableEq, Repr

/-- Python `k in rule` / `rule[k]`. -/
def ruleLookup (r : Rule) (k : String) : Option PyVal :=
  (List.find? (fun p => p.1 == k) r.entries).map (fun p => p.2)

/-- Python `k in rule`. -/
def ruleHas (r : Rule) (k : String) : Bool :=
  (ruleLookup r k).isSome

/-- Modelled from the spec: `SEARCH_KEYS` is referenced by
`MailAccount.process_rules` but defined outside the files provided under
`src/`; per spec §3 and §6 the rule-file search keys are exactly the Search
Specification predicate names. -/
def SEARCH_KEYS : List String :=
  ["senders", "not_senders", "recipients", "since", "before", "date",
   "subject", "not_subject", "unread", "not_replied", "attachments",
   "no_attachments"]

/-- The search-specification extraction of `process_rules`:
`search[k] = listify(v)` for every rule key among the search keys,
in rule order. -/
def buildSearch (r : Rule) : Spec :=
  r.entries.filterMap (fun p =>
    if SEARCH_KEYS.contains p.1 then some (p.1, PyVal.list (pyListify p.2))
    else none)

/-- The merge mode of a rule: `rule["merge"]` when present (a non-string
value compares unequal to both "and" and "or", modelled by a marker string),
else "and". -/
def mergeOf (r : Rule) : String :=
  match ruleLookup r "merge" with
  | some (PyVal.str s) => s
  | some _ => "<non-string-merge>"
  | none => "and"

/-- The move-action block of `process_rules` for one rule: create the
missing destination folder (or report the intent under dry-run), then move
the matched set (or report the intended move). -/
def moveActionStep (srv : Server) (hasMove dryrun : Bool) (uids : List Nat)
    (dest : String) : Except RErr (Server × List Call × List Report) := do
  let (srv1, c1, r1) :=
    if !(hasFolder srv dest) then
      if !dryrun then
        let (s2, c2) := createFolderOp srv dest
        (s2, c2, [Report.createdFolder dest])
      else (srv, [], [Report.wouldCreateFolder dest])
    else (srv, [], [])
  if !dryrun then
    let (srv2, c2) ← moveMessages srv1 hasMove uids "INBOX" dest
    .ok (srv2, c1 ++ c2, r1 ++ [Report.moved uids.length])
  else
    .ok (srv1, c1, r1 ++ [Report.wouldMove uids.length])

/-- The delete-action block of `process_rules` for one rule. -/
def deleteActionStep (srv : Server) (dryrun : Bool) (uids : List Nat) :
    Except RErr (Server × List Call × List Report) := do
  if !dryrun then
    let (srv1, c1) ← deleteMessages srv uids "INBOX"
    .ok (srv1, c1, [Report.deletedMsgs uids.length])
  else
    .ok (srv, [], [Report.wouldDelete uids.length])

/-- One rule of `MailAccount.process_rules`: build the search specification
from the rule's search keys, resolve it against INBOX with the rule's merge
mode, and when at least one message matches, fetch the matched messages (for
display) and run the move and/or delete action blocks.  Cosmetic prints
(rule headers, per-message lines) are not modelled. -/
def processRule (srv : Server) (hasMove : Bool) (rule : Rule) (dryrun : Bool) :
    Except RErr (Server × List Call × List Report) := do
  let search := buildSearch rule
  let merge := mergeOf rule
  if search.length > 0 then
    let uids ← getMessageUids srv "INBOX" search merge
    if uids.length > 0 then
      let _ ← getMessageObjs srv uids "INBOX"
      let (srv1, c1, r1) ←
        match ruleLookup rule "move" with
        | some mv => moveActionStep srv hasMove dryrun uids mv.asStr
        | none => .ok (srv, ([] : List Call), ([] : List Report))
      let (srv2, c2, r2) ←
        if ruleHas rule "delete" then deleteActionStep srv1 dryrun uids
        else .ok (srv1, ([] : List Call), ([] : List Report))
      .ok (srv2, c1 ++ c2, r1 ++ r2)
    else .ok (srv, [], [])
  else .ok (srv, [], [])

/-- Embeds `MailAccount.process_rules` over a flat, ordered rule list (rule-file
loading is configuration plumbing outside the engine). -/
def processRules (srv : Server) (hasMove : Bool) : List Rule → Bool →
    Except RErr (Server × List Call × List Report)
  | [], _ => .ok (srv, [], [])
  | r :: rest, dryrun => do
    let (srv1, c1, r1) ← processRule srv hasMove r dryrun
    let (srv2, c2, r2) ← processRules srv1 hasMove rest dryrun
    .ok (srv2, c1 ++ c2, r1 ++ r2)

/-! ## Supporting lemmas -/

theorem ebind_ok {α β : Type} (a : α) (f : α → Except RErr β) :
    (Except.ok a : Except RErr α) >>= f = f a := rfl

theorem ebind_err {α β : Type} (e : RErr) (f : α → Except RErr β) :
    (Except.error e : Except RErr α) >>= f = .error e := rfl

theorem insNat_toFinset (x : Nat) (l : List Nat) :
    (insNat x l).toFinset = insert x l.toFinset := by
  induction l with
  | nil => rfl
  | cons y ys ih =>
    by_cases h1 : x < y
    · simp [insNat, h1]
    · by_cases h2 : x = y
      · subst h2
        simp [insNat, h1]
      · have hb : (x == y) = false := by simp [h2]
        simp only [insNat, if_neg h1, hb, Bool.false_eq_true, if_false,
          List.toFinset_cons, ih]
        rw [Finset.Insert.comm]

theorem setUnion_toFinset (n s : List Nat) :
    (setUnion s n).toFinset = s.toFinset ∪ n.toFinset := by
  induction n generalizing s with
  | nil => simp [setUnion]
  | cons a t ih =>
    show (setUnion (insNat a s) t).toFinset = _
    rw [ih, insNat_toFinset]
    simp [Finset.insert_union, Finset.union_insert]

theorem canon_toFinset (l : List Nat) : (canon l).toFinset = l.toFinset := by
  simp [canon, setUnion_toFinset]

theorem setInter_toFinset (s n : List Nat) :
    (setInter s n).toFinset = s.toFinset ∩ n.toFinset := by
  ext x
  simp [setInter, List.mem_filter, List.mem_toFinset]

theorem insNat_ne_nil (x : Nat) (l : List Nat) : insNat x l ≠ [] := by
  cases l with
  | nil => simp [insNat]
  | cons y ys =>
    by_cases h1 : x < y
    · simp [insNat, h1]
    · by_cases h2 : (x == y) = true <;> simp [insNat, h1, h2]

theorem setUnion_ne_nil_of_left (n s : List Nat) (h : s ≠ []) :
    setUnion s n ≠ [] := by
  induction n generalizing s with
  | nil => exact h
  | cons a t ih => exact ih (insNat a s) (insNat_ne_nil a s)

theorem canon_ne_nil (l : List Nat) (h : l ≠ []) : canon l ≠ [] := by
  cases l with
  | nil => exact absurd rfl h
  | cons a t => exact setUnion_ne_nil_of_left t (insNat a []) (insNat_ne_nil a [])

theorem postFilterLoop_nil_uids (srv : Server) (folderName : String)
    (spec : List (String × PyVal)) : postFilterLoop srv folderName spec [] = .ok [] := by
  induction spec with
  | nil => rfl
  | cons p rest ih =>
    obtain ⟨k, v⟩ := p
    by_cases h1 : (k == "attachments") = true
    · simp [postFilterLoop, h1, messagesWithAttachments, ih, ebind_ok]
    · by_cases h2 : (k == "no_attachments") = true <;>
        simp [postFilterLoop, h1, h2, messagesWithAttachments, ih, ebind_ok]

theorem resolveLoop_all_none (srv : Server) (folderName : String)
    (unreadOnly : Bool) (merge : String) (specLen : Nat)
    (spec : List (String × PyVal)) (first : Bool) (uids : List Nat)
    (h : ∀ p ∈ spec, resolvePredicate srv folderName unreadOnly p.1 p.2 = .ok none) :
    resolveLoop srv folderName unreadOnly merge specLen spec first uids = .ok uids := by
  induction spec generalizing first with
  | nil => rfl
  | cons p rest ih =>
    obtain ⟨k, v⟩ := p
    have hp := h (k, v) (List.mem_cons_self _ _)
    simp only [resolveLoop, hp, ebind_ok]
    exact ih first (fun q hq => h q (List.mem_cons_of_mem _ hq))

/-! ## Concrete states used by closed theorems -/

/-- A message with one attachment, dated 10, from `spam@bad.com`. -/
def msgInvoice : Msg :=
  { uid := 1, address := "spam@bad.com", recipients := ["me@x.com"],
    subject := "invoice 42", msgDate := 10, seen := false, answered := false,
    deleted := false, attachCount := 1 }

/-- A read, answered message without attachments, dated 3. -/
def msgHello : Msg :=
  { uid := 2, address := "info@ok.org", recipients := ["me@x.com"],
    subject := "hello", msgDate := 3, seen := true, answered := true,
    deleted := false, attachCount := 0 }

/-- A server with a folder whose name contains a space (a folder name the
account-level `listify` splits apart). -/
def wsSrv : Server := [("a b", [msgInvoice]), ("a", [msgHello]), ("b", [])]

/-- A server with one two-message INBOX. -/
def boxSrv : Server := [("INBOX", [msgInvoice, msgHello]), ("Junk", [])]

/-- A server whose INBOX is empty. -/
def emptySrv : Server := [("INBOX", [])]

/-! ## Claim theorems -/

/-- C10: for every pair of folder names, `move_messages` and
`delete_messages` called with an empty UID collection return immediately
with the server unchanged and an empty protocol trace — no session is
acquired and no protocol call is issued. -/
theorem c10_empty_uids_no_session (srv : Server) (hasMove : Bool)
    (fromF toF : String) :
    moveMessages srv hasMove [] fromF toF = .ok (srv, []) ∧
    deleteMessages srv [] fromF = .ok (srv, []) :=
  ⟨rfl, rfl⟩

/-- C7: the claimed guarantee — the session is terminated on every exit
path, including when acquisition/login raises — fails on the code.  When the
connection is established but login raises, `__enter__` raises, Python never
runs `__exit__`, and one connection is left open (first conjunct).  On the
normal path and on a body failure the session is closed (second and third
conjuncts), and when the connection itself cannot be established nothing
leaks (fourth conjunct). -/
theorem c7_login_failure_leaks_connection :
    withMailSession true false 0 (fun n => (n, .ok ())) = (1, .error .accountLoginFailed) ∧
    withMailSession true true 0 (fun n => (n, .ok ())) = (0, .ok ()) ∧
    withMailSession true true 0 (fun n => (n, .error .bodyFailed)) = (0, .error .bodyFailed) ∧
    withMailSession false false 0 (fun n => (n, .ok ())) = (0, .error .accountLoginFailed) :=
  ⟨rfl, rfl, rfl, rfl⟩

/-- A one-message INBOX dated 10, used to exhibit the dropped BEFORE
clause. -/
def dateSrv : Server :=
  [("INBOX",
    [{ uid := 1, address := "a@x.com", recipients := [], subject := "s",
       msgDate := 10, seen := false, answered := false, deleted := false,
       attachCount := 0 }])]

/-- C4: supplying a single value for the two-value SINCE+BEFORE key list
does not fail with any InvalidSpecification condition: `zip` silently drops
the BEFORE key, the query degenerates to a SINCE-only query (first
conjunct, for every server, folder, date and unread flag), and a search is
issued and succeeds — here returning a message (dated 10) that no BEFORE
bound ever filtered (second conjunct). -/
theorem c4_single_value_date_range_silently_truncated :
    (∀ (srv : Server) (folderName : String) (d : Nat) (uo : Bool),
      getMessagesWithSpecs srv folderName (.list [.str "SINCE", .str "BEFORE"])
          (.date d) uo
        = getMessagesSinceDate srv folderName (.date d) uo) ∧
    getMessagesWithSpecs dateSrv "INBOX" (.list [.str "SINCE", .str "BEFORE"])
        (.date 5) false = .ok [1] :=
  ⟨fun _ _ _ _ => rfl, by decide⟩

/-- C1 counterexample: the folder literally named "a b" contains exactly the
message with UID 1, but resolving the empty specification with merge mode
AND against it returns `[2]` — `listify` splits the folder name on
whitespace and the folders "a" and "b" are searched instead. -/
theorem c1_counterexample_whitespace_folder :
    findFolder wsSrv "a b" = some [msgInvoice] ∧ msgInvoice.uid = 1 ∧
    getMessageUids wsSrv "a b" [] "and" = .ok [2] ∧
    (1 : Nat) ∉ ([2] : List Nat) := by
  refine ⟨rfl, rfl, by decide, by decide⟩

/-- C2 counterexample: INBOX holds UIDs 1 (with an attachment) and 2
(without); the specification `{attachments: true}` has zero recognized
protocol predicates and one post-filter key, and the post-filter applied to
all messages of the folder keeps `[1]`, yet resolution returns the empty
list — the "all messages" seeding happens only for a literally empty
specification. -/
theorem c2_counterexample_postfilter_only :
    getMessageUids boxSrv "INBOX" [("attachments", .bool true)] "and" = .ok [] ∧
    getAllMessageIds boxSrv "INBOX" = .ok [1, 2] ∧
    messagesWithAttachments boxSrv [1, 2] "INBOX" false = .ok [1] ∧
    ([] : List Nat) ≠ [1] := by
  refine ⟨by decide, by decide, by decide, by decide⟩

/-- C8 counterexample: on a folder containing no messages, resolving a
`senders` predicate whose value contains the ">>" sentinel crashes
(`get_message_objs` returns `None` for an empty UID list and the code then
iterates over it) instead of returning the empty UID set the claim
requires. -/
theorem c8_counterexample_empty_folder_crash :
    getMessageUids emptySrv "INBOX" [("senders", .str ">>")] "and" = .error .crash := by
  decide

theorem resolvePredicate_attachments (srv : Server) (folderName : String)
    (uo : Bool) (v : PyVal) :
    resolvePredicate srv folderName uo "attachments" v = .ok none := rfl

theorem resolvePredicate_no_attachments (srv : Server) (folderName : String)
    (uo : Bool) (v : PyVal) :
    resolvePredicate srv folderName uo "no_attachments" v = .ok none := rfl

theorem resolvePredicate_unread (srv : Server) (folderName : String)
    (uo : Bool) (v : PyVal) :
    resolvePredicate srv folderName uo "unread" v = .ok none := rfl

/-- C2 amended: a specification with zero recognized protocol predicates and
one or more post-filter keys resolves to the post-filter applied to the
empty running set, i.e. the empty set — not to the post-filter of all
messages in the folder (only a literally empty specification denotes "all
messages"). -/
theorem c2_amended_postfilter_only_resolves_empty (srv : Server)
    (folderName merge : String) (spec : Spec) (hne : spec ≠ [])
    (hkeys : ∀ p ∈ spec, p.1 = "attachments" ∨ p.1 = "no_attachments") :
    getMessageUids srv folderName spec merge = .ok [] := by
  have hunread : specHas spec "unread" = false := by
    simp only [specHas, List.any_eq_false]
    intro p hp
    rcases hkeys p hp with h | h <;> simp [h]
  have hlen : (spec.length == 0) = false := by
    cases spec with
    | nil => exact absurd rfl hne
    | cons a t => rfl
  have hseed : initialSeed srv folderName spec = .ok [] := by
    simp [initialSeed, hunread, hlen]
  have hloop : resolveLoop srv folderName false merge spec.length spec true [] = .ok [] :=
    resolveLoop_all_none _ _ _ _ _ _ _ _ (fun p hp => by
      rcases hkeys p hp with h | h <;> rw [h]
      · exact resolvePredicate_attachments _ _ _ _
      · exact resolvePredicate_no_attachments _ _ _ _)
  simp only [getMessageUids, hunread, Bool.false_eq_true, if_false, hseed,
    ebind_ok, hloop, postFilterLoop_nil_uids]

/-- C2 witness input. -/
theorem c2_amended_witness :
    ([(("attachments" : String), PyVal.bool true)] ≠ ([] : Spec)) ∧
    getMessageUids boxSrv "INBOX" [("attachments", .bool true)] "and" = .ok [] := by
  refine ⟨by decide, c2_amended_postfilter_only_resolves_empty boxSrv "INBOX" "and"
    [("attachments", .bool true)] (by decide) ?_⟩
  intro p hp
  simp only [List.mem_singleton] at hp
  subst hp
  exact Or.inl rfl

theorem getAllMessageIds_plain (srv : Server) (name : String) (msgs : List Msg)
    (hf : selectFolder srv name = .ok msgs) (hn : name ≠ "*")
    (hw : pyListify (.str name) = [.str name]) :
    getAllMessageIds srv name = .ok (msgs.map (fun m => m.uid) ++ []) := by
  have hns : (name == "*") = false := by simp [hn]
  simp only [getAllMessageIds, getMessageIdsFlag, hns, Bool.false_eq_true,
    if_false, hw, List.map_cons, List.map_nil, PyAtom.asStr]
  simp only [searchFolders, hf, ebind_ok, serverSearch, critPred,
    List.filter_true]

/-- C1 amended: for every existing folder whose name the account-level
`listify` leaves intact (no internal whitespace) and which is not the "*"
wildcard, resolving the empty specification with merge mode AND returns
exactly the set of all message identifiers in that folder. -/
theorem c1_amended_empty_spec_returns_all (srv : Server) (name : String)
    (msgs : List Msg) (hf : selectFolder srv name = .ok msgs) (hn : name ≠ "*")
    (hw : pyListify (.str name) = [.str name]) :
    ∃ l, getMessageUids srv name [] "and" = .ok l ∧
      l.toFinset = (msgs.map (fun m => m.uid)).toFinset := by
  refine ⟨canon (msgs.map (fun m => m.uid) ++ []), ?_, ?_⟩
  · simp only [getMessageUids, specHas, List.any_nil, Bool.false_eq_true,
      if_false, initialSeed, List.length_nil, Nat.zero_eq, beq_self_eq_true,
      if_true, getAllMessageIds_plain srv name msgs hf hn hw, ebind_ok,
      resolveLoop, postFilterLoop]
  · rw [canon_toFinset, List.append_nil]

/-- C1 witness input. -/
theorem c1_amended_witness :
    selectFolder boxSrv "INBOX" = .ok [msgInvoice, msgHello] ∧
    ("INBOX" : String) ≠ "*" ∧
    pyListify (.str "INBOX") = [.str "INBOX"] ∧
    ∃ l, getMessageUids boxSrv "INBOX" [] "and" = .ok l ∧
      l.toFinset = ([msgInvoice, msgHello].map (fun m => m.uid)).toFinset :=
  ⟨by decide, by decide, by decide,
    c1_amended_empty_spec_returns_all boxSrv "INBOX" [msgInvoice, msgHello]
      (by decide) (by decide) (by decide)⟩

theorem filter_contains_self (msgs : List Msg) :
    msgs.filter (fun m : Msg => (msgs.map (fun m2 : Msg => m2.uid) ++ []).contains m.uid) = msgs := by
  rw [List.filter_eq_self]
  intro m hm
  rw [List.append_nil]
  exact List.elem_eq_true_of_mem (List.mem_map_of_mem _ hm)

theorem getMessageObjs_all (srv : Server) (name : String) (msgs : List Msg)
    (hf : selectFolder srv name = .ok msgs) (hne : msgs ≠ []) :
    getMessageObjs srv (msgs.map (fun m => m.uid) ++ []) name = .ok (some msgs) := by
  have hlen : ¬((msgs.map (fun m : Msg => m.uid) ++ []).length < 1) := by
    simp only [List.append_nil, List.length_map]
    have := List.length_pos.mpr hne
    omega
  simp only [getMessageObjs, if_neg hlen, hf, ebind_ok, filter_contains_self]

/-- C8 amended: for every folder that exists, is not the "*" wildcard, has a
whitespace-free name, and contains at least one message, resolving a
`senders` predicate whose value contains the ">>" sentinel bypasses protocol
clause translation and returns exactly the UIDs of the messages whose sender
address splits on "@" into two parts with a domain longer than 32
characters (on an empty folder the code instead crashes, see the
counterexample). -/
theorem c8_amended_domain_sentinel (srv : Server) (name merge : String)
    (msgs : List Msg) (v : PyVal)
    (hf : selectFolder srv name = .ok msgs) (hn : name ≠ "*")
    (hw : pyListify (.str name) = [.str name]) (hne : msgs ≠ [])
    (hv : pyContains v ">>" = true) :
    ∃ l, getMessageUids srv name [("senders", v)] merge = .ok l ∧
      l.toFinset = ((msgs.filter domainCond).map (fun m => m.uid)).toFinset := by
  have hall := getAllMessageIds_plain srv name msgs hf hn hw
  have hobjs := getMessageObjs_all srv name msgs hf hne
  have hpred : resolvePredicate srv name false "senders" v
      = .ok (some ((msgs.filter domainCond).map (fun m => m.uid))) := by
    simp only [resolvePredicate, beq_self_eq_true, if_true, hv, hall, ebind_ok, hobjs]
  have hspec : specHas [("senders", v)] "unread" = false := rfl
  have hseed : initialSeed srv name [("senders", v)] = .ok [] := rfl
  have hmerge : mergeStep merge 1 true []
      ((msgs.filter domainCond).map (fun m => m.uid))
      = canon ((msgs.filter domainCond).map (fun m => m.uid)) := by
    simp [mergeStep, canon]
  have h1 : (("senders" : String) == "attachments") = false := rfl
  have h2 : (("senders" : String) == "no_attachments") = false := rfl
  refine ⟨canon ((msgs.filter domainCond).map (fun m => m.uid)), ?_, ?_⟩
  · simp only [getMessageUids, hspec, Bool.false_eq_true, if_false, hseed,
      ebind_ok, resolveLoop, hpred, List.length_singleton, hmerge,
      postFilterLoop, h1, h2]
  · rw [canon_toFinset]

/-- C8 witness inputs: a sender with a 45-character domain. -/
def msgBulk : Msg :=
  { uid := 7, address := "x@averyveryverylongdomainnamethatkeepsgoing.com",
    recipients := [], subject := "s", msgDate := 1, seen := false,
    answered := false, deleted := false, attachCount := 0 }

/-- A server whose INBOX holds one short-domain and one long-domain
sender. -/
def bulkSrv : Server := [("INBOX", [msgInvoice, msgBulk])]

/-- C8 witness input. -/
theorem c8_amended_witness :
    selectFolder bulkSrv "INBOX" = .ok [msgInvoice, msgBulk] ∧
    ("INBOX" : String) ≠ "*" ∧
    pyListify (.str "INBOX") = [.str "INBOX"] ∧
    ([msgInvoice, msgBulk] : List Msg) ≠ [] ∧
    pyContains (.str ">>") ">>" = true ∧
    ∃ l, getMessageUids bulkSrv "INBOX" [("senders", .str ">>")] "and" = .ok l ∧
      l.toFinset = (([msgInvoice, msgBulk].filter domainCond).map (fun m => m.uid)).toFinset :=
  ⟨by decide, by decide, by decide, by decide, by decide,
    c8_amended_domain_sentinel bulkSrv "INBOX" "and" [msgInvoice, msgBulk]
      (.str ">>") (by decide) (by decide) (by decide) (by decide) (by decide)⟩

/-- C9: for every folder and every single-predicate specification, merge
mode AND and merge mode OR resolve to the same result (the merge mode is a
no-op with one predicate), error outcomes included. -/
theorem c9_single_predicate_merge_noop (srv : Server) (folderName k : String)
    (v : PyVal) :
    getMessageUids srv folderName [(k, v)] "and"
      = getMessageUids srv folderName [(k, v)] "or" := by
  by_cases hk : k = "unread"
  · subst hk
    simp only [getMessageUids, specHas, List.any_cons, List.any_nil,
      beq_self_eq_true, Bool.or_false, if_true, initialSeed,
      List.length_singleton]
    cases h : getUnreadIds srv folderName with
    | error e => simp [h, ebind_err]
    | ok l =>
      simp [h, ebind_ok, resolveLoop, resolvePredicate_unread, postFilterLoop]
  · have hkf : (k == "unread") = false := by simp [hk]
    simp only [getMessageUids, specHas, List.any_cons, List.any_nil,
      Bool.or_false, hkf, Bool.false_eq_true, if_false, initialSeed,
      List.length_singleton]
    cases hp : resolvePredicate srv folderName false k v with
    | error e => simp [resolveLoop, hp, ebind_err]
    | ok o =>
      cases o with
      | none => simp [resolveLoop, hp, ebind_ok]
      | some nu => simp [resolveLoop, hp, ebind_ok, mergeStep]

/-- The two-predicate specification of claim C3. -/
def c3spec : Spec :=
  [("senders", .list [.str "a@x.com"]), ("subject", .str "invoice")]

theorem resolvePredicate_senders_axcom (srv : Server) (f : String)
    (msgs : List Msg) (hf : selectFolder srv f = .ok msgs) :
    resolvePredicate srv f false "senders" (.list [.str "a@x.com"])
      = .ok (some (serverSearch msgs [.kw "FROM", .arg (.str "a@x.com")] ++ [])) := by
  simp only [resolvePredicate, getMessagesFrom, getMessagesWithAddresses,
    addressLoop, getMessagesWithSpecs, hf, ebind_ok]
  rfl

theorem resolvePredicate_subject_invoice (srv : Server) (f : String)
    (msgs : List Msg) (hf : selectFolder srv f = .ok msgs) :
    resolvePredicate srv f false "subject" (.str "invoice")
      = .ok (some (serverSearch msgs [.kw "SUBJECT", .arg (.str "invoice")])) := by
  simp only [resolvePredicate, getMessagesWithSpecs, hf, ebind_ok]
  rfl

/-- C3: resolving `{senders: ["a@x.com"], subject: "invoice"}` with merge
mode AND against an existing folder returns exactly the intersection of the
set obtained by resolving the senders predicate alone and the set obtained
by resolving the subject predicate alone — including when the first
predicate's set is empty. -/
theorem c3_and_two_predicates_is_intersection (srv : Server) (f : String)
    (msgs : List Msg) (hf : selectFolder srv f = .ok msgs) :
    ∃ l l1 l2,
      getMessageUids srv f c3spec "and" = .ok l ∧
      getMessageUids srv f [("senders", .list [.str "a@x.com"])] "and" = .ok l1 ∧
      getMessageUids srv f [("subject", .str "invoice")] "and" = .ok l2 ∧
      l.toFinset = l1.toFinset ∩ l2.toFinset := by
  have hsend := resolvePredicate_senders_axcom srv f msgs hf
  have hsubj := resolvePredicate_subject_invoice srv f msgs hf
  set F : List Nat := serverSearch msgs [.kw "FROM", .arg (.str "a@x.com")] ++ [] with hF
  set T : List Nat := serverSearch msgs [.kw "SUBJECT", .arg (.str "invoice")] with hT
  have hl1 : getMessageUids srv f [("senders", .list [.str "a@x.com"])] "and"
      = .ok (canon F) := by
    simp only [getMessageUids, specHas, List.any_cons, List.any_nil,
      Bool.or_false, initialSeed, List.length_singleton]
    simp only [show (("senders" : String) == "unread") = false from rfl,
      Bool.false_eq_true, if_false]
    simp [resolveLoop, hsend, ebind_ok, mergeStep, canon, postFilterLoop]
  have hl2 : getMessageUids srv f [("subject", .str "invoice")] "and"
      = .ok (canon T) := by
    simp only [getMessageUids, specHas, List.any_cons, List.any_nil,
      Bool.or_false, initialSeed, List.length_singleton]
    simp only [show (("subject" : String) == "unread") = false from rfl,
      Bool.false_eq_true, if_false]
    simp [resolveLoop, hsubj, ebind_ok, mergeStep, canon, postFilterLoop]
  by_cases hFe : F = []
  · -- first predicate resolves empty: the running set stays empty
    refine ⟨[], canon F, canon T, ?_, hl1, hl2, ?_⟩
    · simp only [c3spec, getMessageUids, specHas, specLookup, List.find?,
        List.any_cons, List.any_nil, Bool.or_false, initialSeed,
        show (("senders" : String) == "unread") = false from rfl,
        show (("subject" : String) == "unread") = false from rfl,
        Bool.false_eq_true, if_false, Bool.or_self, Bool.false_and,
        resolveLoop, hsend, hsubj, ebind_ok, hFe]
      simp [mergeStep, postFilterLoop, ebind_ok]
    · simp [canon_toFinset, hFe]
  · refine ⟨setInter (canon F) T, canon F, canon T, ?_, hl1, hl2, ?_⟩
    · have hclen : 0 < (setUnion [] F).length :=
        List.length_pos.mpr (canon_ne_nil F hFe)
      have hFlen : 0 < F.length := List.length_pos.mpr hFe
      simp only [c3spec, getMessageUids, specHas, specLookup, List.find?,
        List.any_cons, List.any_nil, Bool.or_false, initialSeed,
        show (("senders" : String) == "unread") = false from rfl,
        show (("subject" : String) == "unread") = false from rfl,
        Bool.false_eq_true, if_false, Bool.or_self, Bool.false_and,
        resolveLoop, hsend, hsubj, ebind_ok]
      simp [mergeStep, hFlen, hclen, canon, postFilterLoop, ebind_ok]
    · simp [setInter_toFinset, canon_toFinset]

/-- C3 witness inputs: a message matching both predicates and one matching
neither. -/
def msgAX : Msg :=
  { uid := 3, address := "a@x.com", recipients := [], subject := "invoice due",
    msgDate := 5, seen := false, answered := false, deleted := false,
    attachCount := 0 }

/-- A server for the C3 witness. -/
def c3Srv : Server := [("INBOX", [msgAX, msgHello])]

/-- C3 witness input. -/
theorem c3_witness :
    selectFolder c3Srv "INBOX" = .ok [msgAX, msgHello] ∧
    ∃ l l1 l2,
      getMessageUids c3Srv "INBOX" c3spec "and" = .ok l ∧
      getMessageUids c3Srv "INBOX" [("senders", .list [.str "a@x.com"])] "and" = .ok l1 ∧
      getMessageUids c3Srv "INBOX" [("subject", .str "invoice")] "and" = .ok l2 ∧
      l.toFinset = l1.toFinset ∩ l2.toFinset :=
  ⟨by decide,
    c3_and_two_predicates_is_intersection c3Srv "INBOX" [msgAX, msgHello] (by decide)⟩

theorem findFolder_updFolder_same (srv : Server) (n : String)
    (g : List Msg → List Msg) :
    findFolder (updFolder srv n g) n = (findFolder srv n).map g := by
  induction srv with
  | nil => rfl
  | cons hd rest ih =>
    obtain ⟨k, msgs⟩ := hd
    by_cases h : (k == n) = true <;>
      simp [updFolder, findFolder, h, ih]

theorem findFolder_updFolder_ne (srv : Server) (n m : String)
    (g : List Msg → List Msg) (hnm : n ≠ m) :
    findFolder (updFolder srv n g) m = findFolder srv m := by
  induction srv with
  | nil => rfl
  | cons hd rest ih =>
    obtain ⟨k, msgs⟩ := hd
    by_cases hkn : (k == n) = true
    · have hk : k = n := by simpa using hkn
      subst hk
      have hkm : (k == m) = false := by simp [hnm]
      simp [updFolder, findFolder, hkn, hkm, ih]
    · by_cases hkm : (k == m) = true <;>
        simp [updFolder, findFolder, hkn, hkm, ih]

theorem updFolder_updFolder (srv : Server) (n : String)
    (g1 g2 : List Msg → List Msg) :
    updFolder (updFolder srv n g1) n g2 = updFolder srv n (fun l => g2 (g1 l)) := by
  induction srv with
  | nil => rfl
  | cons hd rest ih =>
    obtain ⟨k, msgs⟩ := hd
    by_cases h : (k == n) = true <;>
      simp [updFolder, h, ih]

theorem updFolder_congr (srv : Server) (n : String)
    (f1 f2 : List Msg → List Msg) (h : ∀ l, f1 l = f2 l) :
    updFolder srv n f1 = updFolder srv n f2 := by
  induction srv with
  | nil => rfl
  | cons hd rest ih =>
    obtain ⟨k, msgs⟩ := hd
    by_cases hk : (k == n) = true <;>
      simp [updFolder, hk, h, ih]

theorem expunge_after_flag (uids : List Nat) (l : List Msg) :
    (l.map (fun m =>
        if uids.contains m.uid then { m with deleted := true } else m)).filter
      (fun m => !(m.deleted && uids.contains m.uid))
      = l.filter (fun m => !(uids.contains m.uid)) := by
  induction l with
  | nil => rfl
  | cons m t ih =>
    by_cases h : uids.contains m.uid = true
    · have hmem : m.uid ∈ uids := List.elem_iff.mp h
      have hM : (if uids.contains m.uid = true
          then ({ m with deleted := true } : Msg) else m)
          = { m with deleted := true } := if_pos h
      simp only [List.map_cons, hM]
      rw [List.filter_cons_of_neg (by simp [hmem]),
        List.filter_cons_of_neg (by simp [hmem])]
      exact ih
    · have hnmem : ¬(m.uid ∈ uids) := fun hm => h (List.elem_eq_true_of_mem hm)
      have hM : (if uids.contains m.uid = true
          then ({ m with deleted := true } : Msg) else m) = m := if_neg h
      simp only [List.map_cons, hM]
      rw [List.filter_cons_of_pos (by simp [hnmem]),
        List.filter_cons_of_pos (by simp [hnmem]), ih]

/-- C6: when the account lacks the MOVE capability, `move_messages` on a
nonempty UID set issues copy, delete and expunge within one session, and the
resulting server state is exactly the state a native MOVE produces: the
source folder retains only the messages whose UID is not in the set, and the
destination folder holds its old messages followed by the moved ones. -/
theorem c6_move_fallback_equals_native (srv : Server) (uids : List Nat)
    (fromF toF : String) (srcMsgs dstMsgs : List Msg)
    (hne : uids ≠ [])
    (hsrc : findFolder srv fromF = some srcMsgs)
    (hdst : findFolder srv toF = some dstMsgs)
    (hdiff : fromF ≠ toF) :
    ∃ srv2,
      moveMessages srv false uids fromF toF
        = .ok (srv2, [.sessionOpen, .select fromF false, .copy uids toF,
                      .deleteMsgs uids, .expunge uids, .sessionClose]) ∧
      moveMessages srv true uids fromF toF
        = .ok (srv2, [.sessionOpen, .select fromF false, .move uids toF,
                      .sessionClose]) ∧
      findFolder srv2 fromF
        = some (srcMsgs.filter (fun m => !(uids.contains m.uid))) ∧
      findFolder srv2 toF
        = some (dstMsgs ++ srcMsgs.filter (fun m => uids.contains m.uid)) := by
  have hlen : ¬(uids.length < 1) := by
    have := List.length_pos.mpr hne
    omega
  have hsel : selectFolder srv fromF = .ok srcMsgs := by
    simp [selectFolder, hsrc]
  refine ⟨updFolder (updFolder srv toF
      (fun d => d ++ srcMsgs.filter (fun m => uids.contains m.uid)))
      fromF (List.filter (fun m => !(uids.contains m.uid))), ?_, ?_, ?_, ?_⟩
  · simp only [moveMessages, if_neg hlen, hsel, ebind_ok, Bool.false_eq_true,
      if_false, sessCopy, hsrc, hdst, ebind_ok, sessDeleteFlag, sessExpunge,
      updFolder_updFolder]
    rw [updFolder_congr _ _ _ _ (expunge_after_flag uids)]
  · simp only [moveMessages, if_neg hlen, hsel, ebind_ok, if_true, sessMove,
      hsrc, hdst]
  · rw [findFolder_updFolder_same,
      findFolder_updFolder_ne _ _ _ _ (fun h => hdiff h.symm), hsrc]
    rfl
  · rw [findFolder_updFolder_ne _ _ _ _ hdiff, findFolder_updFolder_same, hdst]
    rfl

/-- C6 witness input. -/
theorem c6_witness :
    (([1] : List Nat) ≠ []) ∧
    findFolder boxSrv "INBOX" = some [msgInvoice, msgHello] ∧
    findFolder boxSrv "Junk" = some [] ∧
    ("INBOX" : String) ≠ "Junk" ∧
    ∃ srv2,
      moveMessages boxSrv false [1] "INBOX" "Junk"
        = .ok (srv2, [.sessionOpen, .select "INBOX" false, .copy [1] "Junk",
                      .deleteMsgs [1], .expunge [1], .sessionClose]) ∧
      moveMessages boxSrv true [1] "INBOX" "Junk"
        = .ok (srv2, [.sessionOpen, .select "INBOX" false, .move [1] "Junk",
                      .sessionClose]) ∧
      findFolder srv2 "INBOX"
        = some ([msgInvoice, msgHello].filter (fun m => !(([1] : List Nat).contains m.uid))) ∧
      findFolder srv2 "Junk"
        = some ([] ++ [msgInvoice, msgHello].filter (fun m => ([1] : List Nat).contains m.uid)) :=
  ⟨by decide, by decide, by decide, by decide,
    c6_move_fallback_equals_native boxSrv [1] "INBOX" "Junk"
      [msgInvoice, msgHello] [] (by decide) (by decide) (by decide) (by decide)⟩

theorem findFolder_append_of_found (s l : Server) (n : String) (a : List Msg)
    (h : findFolder s n = some a) : findFolder (s ++ l) n = some a := by
  induction s with
  | nil => simp [findFolder] at h
  | cons hd rest ih =>
    by_cases hk : (hd.1 == n) = true
    · simp only [findFolder, hk, if_true] at h
      simp only [List.cons_append, findFolder, hk, if_true, h]
    · simp only [findFolder, hk, Bool.false_eq_true, if_false] at h
      simp only [List.cons_append, findFolder, hk, Bool.false_eq_true, if_false]
      exact ih h

theorem findFolder_append_new (s : Server) (n : String) (msgs : List Msg)
    (h : hasFolder s n = false) : findFolder (s ++ [(n, msgs)]) n = some msgs := by
  induction s with
  | nil => simp [findFolder]
  | cons hd rest ih =>
    by_cases hk : (hd.1 == n) = true
    · exfalso
      simp [hasFolder, findFolder, hk] at h
    · simp only [List.cons_append, findFolder, hk, Bool.false_eq_true, if_false]
      apply ih
      simpa [hasFolder, findFolder, hk] using h

theorem isSome_findFolder_updFolder (s : Server) (n m : String)
    (g : List Msg → List Msg) :
    (findFolder (updFolder s n g) m).isSome = (findFolder s m).isSome := by
  by_cases h : n = m
  · subst h
    rw [findFolder_updFolder_same]
    cases findFolder s n <;> rfl
  · rw [findFolder_updFolder_ne _ _ _ _ h]

theorem moveMessages_ok (s : Server) (hm : Bool) (uids : List Nat)
    (fromF toF : String) (a b : List Msg)
    (hfrom : findFolder s fromF = some a) (hto : findFolder s toF = some b) :
    ∃ s2 c, moveMessages s hm uids fromF toF = .ok (s2, c) ∧
      ∀ m, (findFolder s2 m).isSome = (findFolder s m).isSome := by
  by_cases hu : uids.length < 1
  · exact ⟨s, [], by simp [moveMessages, hu], fun m => rfl⟩
  · have hsel : selectFolder s fromF = .ok a := by simp [selectFolder, hfrom]
    cases hm
    · refine ⟨sessExpunge (sessDeleteFlag
        (updFolder s toF (fun d => d ++ a.filter (fun m => uids.contains m.uid)))
        fromF uids) fromF uids,
        [.sessionOpen, .select fromF false, .copy uids toF, .deleteMsgs uids,
         .expunge uids, .sessionClose], ?_, ?_⟩
      · simp only [moveMessages, if_neg hu, hsel, ebind_ok, Bool.false_eq_true,
          if_false, sessCopy, hfrom, hto, ebind_ok]
      · intro m
        simp only [sessExpunge, sessDeleteFlag]
        rw [isSome_findFolder_updFolder, isSome_findFolder_updFolder,
          isSome_findFolder_updFolder]
    · refine ⟨updFolder
        (updFolder s toF (fun d => d ++ a.filter (fun m => uids.contains m.uid)))
        fromF (List.filter (fun m => !(uids.contains m.uid))),
        [.sessionOpen, .select fromF false, .move uids toF, .sessionClose], ?_, ?_⟩
      · simp only [moveMessages, if_neg hu, hsel, ebind_ok, if_true, sessMove,
          hfrom, hto]
      · intro m
        rw [isSome_findFolder_updFolder, isSome_findFolder_updFolder]

theorem deleteMessages_ok (s : Server) (uids : List Nat) (fromF : String)
    (a : List Msg) (hfrom : findFolder s fromF = some a) :
    ∃ s2 c, deleteMessages s uids fromF = .ok (s2, c) := by
  by_cases hu : uids.length < 1
  · exact ⟨s, [], by simp [deleteMessages, hu]⟩
  · have hsel : selectFolder s fromF = .ok a := by simp [selectFolder, hfrom]
    exact ⟨sessExpunge (sessDeleteFlag s fromF uids) fromF uids,
      [.sessionOpen, .select fromF false, .deleteMsgs uids, .expunge uids,
       .sessionClose],
      by simp only [deleteMessages, if_neg hu, hsel, ebind_ok]⟩

theorem moveActionStep_dry (srv : Server) (hm : Bool) (uids : List Nat)
    (dest : String) :
    moveActionStep srv hm true uids dest
      = .ok (srv, [],
          (if hasFolder srv dest then [] else [Report.wouldCreateFolder dest])
            ++ [Report.wouldMove uids.length]) := by
  by_cases h : hasFolder srv dest = true <;> simp [moveActionStep, h]

theorem moveActionStep_nondry_ok (srv : Server) (hm : Bool) (uids : List Nat)
    (dest : String) (inbox : List Msg)
    (hin : findFolder srv "INBOX" = some inbox) :
    ∃ s2 c2, moveActionStep srv hm false uids dest
      = .ok (s2, c2,
          (if hasFolder srv dest then [] else [Report.createdFolder dest])
            ++ [Report.moved uids.length]) ∧
      (findFolder s2 "INBOX").isSome = true := by
  by_cases h : hasFolder srv dest = true
  · obtain ⟨d, hd⟩ := Option.isSome_iff_exists.mp h
    obtain ⟨s2, c2, hmv, hpres⟩ :=
      moveMessages_ok srv hm uids "INBOX" dest inbox d hin hd
    refine ⟨s2, [] ++ c2, ?_, ?_⟩
    · simp [moveActionStep, h, hmv, ebind_ok]
    · rw [hpres, hin]
      rfl
  · have hnew : findFolder (srv ++ [(dest, [])]) dest = some [] :=
      findFolder_append_new srv dest [] (by simpa using h)
    have hinx : findFolder (srv ++ [(dest, [])]) "INBOX" = some inbox :=
      findFolder_append_of_found srv [(dest, [])] "INBOX" inbox hin
    obtain ⟨s2, c2, hmv, hpres⟩ :=
      moveMessages_ok (srv ++ [(dest, [])]) hm uids "INBOX" dest inbox [] hinx hnew
    refine ⟨s2, [.sessionOpen, .createFolder dest, .sessionClose] ++ c2, ?_, ?_⟩
    · simp [moveActionStep, h, createFolderOp, hmv, ebind_ok]
    · rw [hpres, hinx]
      rfl

theorem deleteActionStep_dry (srv : Server) (uids : List Nat) :
    deleteActionStep srv true uids
      = .ok (srv, [], [Report.wouldDelete uids.length]) := rfl

theorem deleteActionStep_nondry_ok (srv : Server) (uids : List Nat)
    (inbox : List Msg) (hin : findFolder srv "INBOX" = some inbox) :
    ∃ s2 c2, deleteActionStep srv false uids
      = .ok (s2, c2, [Report.deletedMsgs uids.length]) := by
  obtain ⟨s2, c2, hdel⟩ := deleteMessages_ok srv uids "INBOX" inbox hin
  exact ⟨s2, c2, by simp [deleteActionStep, hdel, ebind_ok]⟩

theorem processRule_dry (srv : Server) (hm : Bool) (rule : Rule)
    (uids : List Nat) (inbox : List Msg)
    (hs : buildSearch rule ≠ [])
    (hres : getMessageUids srv "INBOX" (buildSearch rule) (mergeOf rule) = .ok uids)
    (hpos : 0 < uids.length)
    (hin : findFolder srv "INBOX" = some inbox) :
    processRule srv hm rule true
      = .ok (srv, [],
          (match ruleLookup rule "move" with
           | some mv =>
             (if hasFolder srv mv.asStr then []
              else [Report.wouldCreateFolder mv.asStr])
               ++ [Report.wouldMove uids.length]
           | none => [])
          ++ (if ruleHas rule "delete" then [Report.wouldDelete uids.length]
              else [])) := by
  have hslen : 0 < (buildSearch rule).length := List.length_pos.mpr hs
  have hsel : selectFolder srv "INBOX" = .ok inbox := by simp [selectFolder, hin]
  have hul : ¬(uids.length < 1) := by omega
  have hobjs : getMessageObjs srv uids "INBOX"
      = .ok (some (inbox.filter (fun m => uids.contains m.uid))) := by
    simp only [getMessageObjs, if_neg hul, hsel, ebind_ok]
  simp only [processRule, if_pos hslen, hres, ebind_ok, if_pos hpos, hobjs]
  cases hmv : ruleLookup rule "move" with
  | none =>
    by_cases hdel : ruleHas rule "delete" = true
    · simp [hdel, deleteActionStep_dry, ebind_ok]
    · simp [hdel, ebind_ok]
  | some mv =>
    by_cases hdel : ruleHas rule "delete" = true
    · simp [moveActionStep_dry, hdel, deleteActionStep_dry, ebind_ok]
    · simp [moveActionStep_dry, hdel, ebind_ok]

theorem processRule_nondry_ok (srv : Server) (hm : Bool) (rule : Rule)
    (uids : List Nat) (inbox : List Msg)
    (hs : buildSearch rule ≠ [])
    (hres : getMessageUids srv "INBOX" (buildSearch rule) (mergeOf rule) = .ok uids)
    (hpos : 0 < uids.length)
    (hin : findFolder srv "INBOX" = some inbox) :
    ∃ s2 c2 r2, processRule srv hm rule false = .ok (s2, c2, r2) ∧
      r2 = (match ruleLookup rule "move" with
            | some mv =>
              (if hasFolder srv mv.asStr then []
               else [Report.createdFolder mv.asStr])
                ++ [Report.moved uids.length]
            | none => [])
        ++ (if ruleHas rule "delete" then [Report.deletedMsgs uids.length]
            else []) := by
  have hslen : 0 < (buildSearch rule).length := List.length_pos.mpr hs
  have hsel : selectFolder srv "INBOX" = .ok inbox := by simp [selectFolder, hin]
  have hul : ¬(uids.length < 1) := by omega
  have hobjs : getMessageObjs srv uids "INBOX"
      = .ok (some (inbox.filter (fun m => uids.contains m.uid))) := by
    simp only [getMessageObjs, if_neg hul, hsel, ebind_ok]
  cases hmv : ruleLookup rule "move" with
  | none =>
    by_cases hdel : ruleHas rule "delete" = true
    · obtain ⟨s2, c2, hds⟩ := deleteActionStep_nondry_ok srv uids inbox hin
      refine ⟨s2, [] ++ c2, _, ?_, rfl⟩
      simp only [processRule, if_pos hslen, hres, ebind_ok, if_pos hpos, hobjs,
        hmv, hdel, if_true, hds, ebind_ok]
    · refine ⟨srv, [] ++ [], _, ?_, rfl⟩
      simp only [processRule, if_pos hslen, hres, ebind_ok, if_pos hpos, hobjs,
        hmv, hdel, Bool.false_eq_true, if_false, ebind_ok]
  | some mv =>
    obtain ⟨s1, c1, hmvs, hkeep⟩ :=
      moveActionStep_nondry_ok srv hm uids mv.asStr inbox hin
    obtain ⟨inbox1, hin1⟩ := Option.isSome_iff_exists.mp hkeep
    by_cases hdel : ruleHas rule "delete" = true
    · obtain ⟨s2, c2, hds⟩ := deleteActionStep_nondry_ok s1 uids inbox1 hin1
      refine ⟨s2, c1 ++ c2, _, ?_, rfl⟩
      simp only [processRule, if_pos hslen, hres, ebind_ok, if_pos hpos, hobjs,
        hmv, hmvs, ebind_ok, hdel, if_true, hds]
    · refine ⟨s1, c1 ++ [], _, ?_, rfl⟩
      simp only [processRule, if_pos hslen, hres, ebind_ok, if_pos hpos, hobjs,
        hmv, hmvs, ebind_ok, hdel, Bool.false_eq_true, if_false]

theorem processRules_single_of (srv : Server) (hm : Bool) (r : Rule) (d : Bool)
    (s : Server) (c : List Call) (rep : List Report)
    (h : processRule srv hm r d = .ok (s, c, rep)) :
    processRules srv hm [r] d = .ok (s, c, rep) := by
  simp [processRules, h, ebind_ok]

/-- C5: for every rule whose specification resolves to n ≥ 1 messages
against an existing INBOX, running the interpreter on that rule with
dry-run=true leaves the server state unchanged and performs no protocol
call at all (in particular no folder creation, no move, no delete), while
reporting the intended move and/or delete action with the same match count
n that a non-dry run reports for its action. -/
theorem c5_dry_run_no_mutation_same_count (srv : Server) (hm : Bool)
    (rule : Rule) (uids : List Nat) (n : Nat) (inbox : List Msg)
    (hs : buildSearch rule ≠ [])
    (hres : getMessageUids srv "INBOX" (buildSearch rule) (mergeOf rule) = .ok uids)
    (hn : uids.length = n) (hpos : 1 ≤ n)
    (hin : findFolder srv "INBOX" = some inbox) :
    (∃ reps, processRules srv hm [rule] true = .ok (srv, [], reps) ∧
      (∀ mv, ruleLookup rule "move" = some mv → Report.wouldMove n ∈ reps) ∧
      (ruleHas rule "delete" = true → Report.wouldDelete n ∈ reps)) ∧
    (∃ srv2 calls2 reps2,
      processRules srv hm [rule] false = .ok (srv2, calls2, reps2) ∧
      (∀ mv, ruleLookup rule "move" = some mv → Report.moved n ∈ reps2) ∧
      (ruleHas rule "delete" = true → Report.deletedMsgs n ∈ reps2)) := by
  subst hn
  have hpos' : 0 < uids.length := hpos
  constructor
  · refine ⟨_, processRules_single_of _ _ _ _ _ _ _
      (processRule_dry srv hm rule uids inbox hs hres hpos' hin), ?_, ?_⟩
    · intro mv hmv
      simp [hmv, List.mem_append]
    · intro hdel
      simp [hdel, List.mem_append]
  · obtain ⟨s2, c2, r2, hpr, hr2⟩ :=
      processRule_nondry_ok srv hm rule uids inbox hs hres hpos' hin
    refine ⟨s2, c2, r2, processRules_single_of _ _ _ _ _ _ _ hpr, ?_, ?_⟩
    · intro mv hmv
      subst hr2
      simp [hmv, List.mem_append]
    · intro hdel
      subst hr2
      simp [hdel, List.mem_append]

/-- The concrete rule of the C5 witness: move matching messages to a folder
that does not exist yet. -/
def ruleSpam : Rule :=
  { entries := [("senders", .str "spam@bad.com"), ("move", .str "Trash")] }

/-- C5 witness input. -/
theorem c5_witness :
    buildSearch ruleSpam ≠ [] ∧
    getMessageUids boxSrv "INBOX" (buildSearch ruleSpam) (mergeOf ruleSpam) = .ok [1] ∧
    ([1] : List Nat).length = 1 ∧ 1 ≤ 1 ∧
    findFolder boxSrv "INBOX" = some [msgInvoice, msgHello] ∧
    ((∃ reps, processRules boxSrv false [ruleSpam] true = .ok (boxSrv, [], reps) ∧
      (∀ mv, ruleLookup ruleSpam "move" = some mv → Report.wouldMove 1 ∈ reps) ∧
      (ruleHas ruleSpam "delete" = true → Report.wouldDelete 1 ∈ reps)) ∧
    (∃ srv2 calls2 reps2,
      processRules boxSrv false [ruleSpam] false = .ok (srv2, calls2, reps2) ∧
      (∀ mv, ruleLookup ruleSpam "move" = some mv → Report.moved 1 ∈ reps2) ∧
      (ruleHas ruleSpam "delete" = true → Report.deletedMsgs 1 ∈ reps2))) :=
  ⟨by decide, by decide, by decide, by decide, by decide,
    c5_dry_run_no_mutation_same_count boxSrv false ruleSpam [1] 1
      [msgInvoice, msgHello] (by decide) (by decide) (by decide) (by decide)
      (by decide)⟩
